import Mathlib

/-!
Shallow embedding of the gamecode-backend contract layer (src/src/lib.rs):
the chat data model, its structured (JSON-like) serialization as derived by
serde, the backend error taxonomy with its retryability test, the retry
configuration with its backoff strategies, and the streaming event protocol.
Machine integers (u32, usize, u64 millisecond durations) are modelled as Nat;
f32 inference parameters are modelled as rationals; serde_json::Value is
modelled as the Json type below; a Uuid is modelled by its string form.
-/

/-- Role of a message in conversation (enum MessageRole). -/
inductive MessageRole where
  | System
  | User
  | Assistant
  deriving DecidableEq

/-- Token usage information (struct Usage; u32 counters as Nat). -/
structure Usage where
  input_tokens : Nat
  output_tokens : Nat
  total_tokens : Nat
  deriving DecidableEq

/-- Structured interchange values: the model of serde_json::Value.
Objects are ordered field lists, numbers are rationals. -/
inductive Json where
  | null
  | bool (b : Bool)
  | num (q : ℚ)
  | str (s : String)
  | arr (elems : List Json)
  | obj (fields : List (String × Json))

/-- A tool call made by the LLM (struct ToolCall; input is a serde_json::Value). -/
structure ToolCall where
  id : String
  name : String
  input : Json

/-- Tool specification for the LLM (struct Tool). -/
structure Tool where
  name : String
  description : String
  input_schema : Json

/-- Alias so the ContentBlock constructor named ToolCall can refer to the type. -/
abbrev ToolCallT := ToolCall

/-- Content blocks within a message (enum ContentBlock). -/
inductive ContentBlock where
  | Text (s : String)
  | ToolCall (tc : ToolCallT)
  | ToolResult (tool_call_id : String) (result : String)

/-- A message in a conversation (struct Message). -/
structure Message where
  role : MessageRole
  content : List ContentBlock

/-- Message::text: a message with a single text content block. -/
def Message.text (role : MessageRole) (t : String) : Message :=
  ⟨role, [ContentBlock.Text t]⟩

/-- Message::with_tool_calls: a text block followed by the tool calls,
each wrapped as a ToolCall content block. -/
def Message.with_tool_calls (role : MessageRole) (t : String)
    (tool_calls : List ToolCall) : Message :=
  ⟨role, ContentBlock.Text t :: tool_calls.map ContentBlock.ToolCall⟩

/-- Message::tool_result: a User message with a single ToolResult block. -/
def Message.tool_result (tool_call_id : String) (result : String) : Message :=
  ⟨MessageRole.User, [ContentBlock.ToolResult tool_call_id result]⟩

/-- Inference configuration parameters (struct InferenceConfig; f32 as ℚ). -/
structure InferenceConfig where
  temperature : Option ℚ
  top_p : Option ℚ
  max_tokens : Option Nat

/-- InferenceConfig::default (impl Default for InferenceConfig). -/
def InferenceConfig.default : InferenceConfig :=
  ⟨some (7 / 10), some (9 / 10), some 4096⟩

/-- A Uuid, modelled by its hyphenated string form. -/
abbrev Uuid := String

/-- A chat request (struct ChatRequest). The status callback is a runtime
function handle; the model is parametric in its payload type σ. -/
structure ChatRequest (σ : Type) where
  messages : List Message
  model : Option String
  tools : Option (List Tool)
  inference_config : Option InferenceConfig
  session_id : Option Uuid
  status_callback : Option σ

/-- A complete response from an LLM backend (struct ChatResponse). -/
structure ChatResponse where
  message : Message
  tool_calls : List ToolCall
  usage : Option Usage
  model : String
  session_id : Option Uuid

/-- Events in a streaming chat response (enum ChatStreamEvent). -/
inductive ChatStreamEvent where
  | Start (role : MessageRole)
  | TextDelta (text : String)
  | ToolCallStart (id : String) (name : String)
  | ToolCallDelta (id : String) (input : String)
  | ToolCallEnd (id : String)
  | End (usage : Option Usage)
  deriving DecidableEq

/-- Backoff strategy for retries (enum BackoffStrategy; the Linear increment
Duration and the Exponential u32 multiplier are Nat, durations in ms). -/
inductive BackoffStrategy where
  | Fixed
  | Exponential (multiplier : Nat)
  | Linear (increment : Nat)
  deriving DecidableEq

/-- Configuration for retry behavior (struct RetryConfig; initial_delay in ms). -/
structure RetryConfig where
  max_retries : Nat
  initial_delay : Nat
  backoff_strategy : BackoffStrategy
  verbose : Bool
  deriving DecidableEq

/-- RetryConfig::default (impl Default for RetryConfig). -/
def RetryConfig.default : RetryConfig :=
  ⟨10, 2000, BackoffStrategy.Exponential 3, false⟩

/-- Errors that can occur in backend operations (enum BackendError). -/
inductive BackendError where
  | UnsupportedModel (model : String)
  | RateLimited
  | ValidationError (message : String)
  | AuthenticationError
  | NetworkError (message : String)
  | ProviderError (message : String)
  | InternalError (message : String)
  deriving DecidableEq

/-- BackendError::is_retryable: matches RateLimited and NetworkError only. -/
def BackendError.is_retryable : BackendError → Bool
  | BackendError.RateLimited => true
  | BackendError.NetworkError _ => true
  | _ => false

/-- Modelled from the spec: the delay before retry attempt n (1-indexed) for a
backoff strategy and initial delay d, per section 4.2 of the spec. The retry
execution loop is absent from the source, which only declares the
BackoffStrategy variants; the spec gives Fixed d, Exponential d times
m to the power (n-1), Linear d plus i times (n-1). -/
def BackoffStrategy.delay : BackoffStrategy → Nat → Nat → Nat
  | BackoffStrategy.Fixed, d, _ => d
  | BackoffStrategy.Exponential m, d, n => d * m ^ (n - 1)
  | BackoffStrategy.Linear i, d, n => d + i * (n - 1)

/-- Serde serialization of MessageRole (externally tagged unit variants). -/
def MessageRole.toJson : MessageRole → Json
  | MessageRole.System => Json.str "System"
  | MessageRole.User => Json.str "User"
  | MessageRole.Assistant => Json.str "Assistant"

/-- Serde deserialization of MessageRole. -/
def MessageRole.fromJson : Json → Option MessageRole
  | Json.str "System" => some MessageRole.System
  | Json.str "User" => some MessageRole.User
  | Json.str "Assistant" => some MessageRole.Assistant
  | _ => none

/-- Serde serialization of an Option field: None becomes null. -/
def serOption {α : Type} (f : α → Json) : Option α → Json
  | none => Json.null
  | some a => f a

/-- Serde deserialization of an Option field: null becomes None. -/
def deserOption {α : Type} (g : Json → Option α) : Json → Option (Option α)
  | Json.null => some none
  | j => (g j).map some

/-- Deserialize each element of a JSON array, failing if any element fails. -/
def fromJsonList {α : Type} (g : Json → Option α) : List Json → Option (List α)
  | [] => some []
  | j :: js => do
      let a ← g j
      let as ← fromJsonList g js
      pure (a :: as)

/-- Serde serialization of a Vec as a JSON array. -/
def serList {α : Type} (f : α → Json) (xs : List α) : Json :=
  Json.arr (xs.map f)

/-- Serde deserialization of a Vec from a JSON array. -/
def listFromJson {α : Type} (g : Json → Option α) : Json → Option (List α)
  | Json.arr js => fromJsonList g js
  | _ => none

/-- Deserialize a JSON string. -/
def strFromJson : Json → Option String
  | Json.str s => some s
  | _ => none

/-- Deserialize a rational (the f32 model) from a JSON number. -/
def ratFromJson : Json → Option ℚ
  | Json.num q => some q
  | _ => none

/-- Deserialize a Nat (the u32 model) from an integral JSON number. -/
def natFromJson : Json → Option Nat
  | Json.num q => if q.den = 1 ∧ 0 ≤ q.num then some q.num.toNat else none
  | _ => none

/-- Serde serialization of ToolCall (derived field order). -/
def ToolCall.toJson (tc : ToolCall) : Json :=
  Json.obj [("id", Json.str tc.id), ("name", Json.str tc.name), ("input", tc.input)]

/-- Serde deserialization of ToolCall. -/
def ToolCall.fromJson : Json → Option ToolCall
  | Json.obj [("id", Json.str i), ("name", Json.str n), ("input", v)] => some ⟨i, n, v⟩
  | _ => none

/-- Serde serialization of Tool (derived field order). -/
def Tool.toJson (t : Tool) : Json :=
  Json.obj [("name", Json.str t.name), ("description", Json.str t.description),
    ("input_schema", t.input_schema)]

/-- Serde deserialization of Tool. -/
def Tool.fromJson : Json → Option Tool
  | Json.obj [("name", Json.str n), ("description", Json.str d), ("input_schema", v)] =>
      some ⟨n, d, v⟩
  | _ => none

/-- Serde serialization of ContentBlock (externally tagged variants). -/
def ContentBlock.toJson : ContentBlock → Json
  | ContentBlock.Text s => Json.obj [("Text", Json.str s)]
  | ContentBlock.ToolCall tc => Json.obj [("ToolCall", tc.toJson)]
  | ContentBlock.ToolResult tid r =>
      Json.obj [("ToolResult",
        Json.obj [("tool_call_id", Json.str tid), ("result", Json.str r)])]

/-- Serde deserialization of ContentBlock. -/
def ContentBlock.fromJson : Json → Option ContentBlock
  | Json.obj [("Text", Json.str s)] => some (ContentBlock.Text s)
  | Json.obj [("ToolCall", j)] => (ToolCall.fromJson j).map ContentBlock.ToolCall
  | Json.obj [("ToolResult",
      Json.obj [("tool_call_id", Json.str tid), ("result", Json.str r)])] =>
      some (ContentBlock.ToolResult tid r)
  | _ => none

/-- Serde serialization of Message (derived field order). -/
def Message.toJson (m : Message) : Json :=
  Json.obj [("role", m.role.toJson), ("content", serList ContentBlock.toJson m.content)]

/-- Serde deserialization of Message. -/
def Message.fromJson : Json → Option Message
  | Json.obj [("role", rj), ("content", cj)] => do
      let r ← MessageRole.fromJson rj
      let c ← listFromJson ContentBlock.fromJson cj
      pure ⟨r, c⟩
  | _ => none

/-- Serde serialization of InferenceConfig (derived field order). -/
def InferenceConfig.toJson (c : InferenceConfig) : Json :=
  Json.obj [("temperature", serOption Json.num c.temperature),
    ("top_p", serOption Json.num c.top_p),
    ("max_tokens", serOption (fun (n : Nat) => Json.num (n : ℚ)) c.max_tokens)]

/-- Serde deserialization of InferenceConfig. -/
def InferenceConfig.fromJson : Json → Option InferenceConfig
  | Json.obj [("temperature", tj), ("top_p", pj), ("max_tokens", mj)] => do
      let t ← deserOption ratFromJson tj
      let p ← deserOption ratFromJson pj
      let mt ← deserOption natFromJson mj
      pure ⟨t, p, mt⟩
  | _ => none

/-- Serde serialization of Usage (derived field order). -/
def Usage.toJson (u : Usage) : Json :=
  Json.obj [("input_tokens", Json.num (u.input_tokens : ℚ)),
    ("output_tokens", Json.num (u.output_tokens : ℚ)),
    ("total_tokens", Json.num (u.total_tokens : ℚ))]

/-- Serde deserialization of Usage. -/
def Usage.fromJson : Json → Option Usage
  | Json.obj [("input_tokens", ij), ("output_tokens", oj), ("total_tokens", tj)] => do
      let i ← natFromJson ij
      let o ← natFromJson oj
      let t ← natFromJson tj
      pure ⟨i, o, t⟩
  | _ => none

/-- Serde serialization of ChatRequest: the status_callback field carries
the serde skip attribute and is omitted from the serialized form. -/
def ChatRequest.toJson {σ : Type} (r : ChatRequest σ) : Json :=
  Json.obj [("messages", serList Message.toJson r.messages),
    ("model", serOption Json.str r.model),
    ("tools", serOption (serList Tool.toJson) r.tools),
    ("inference_config", serOption InferenceConfig.toJson r.inference_config),
    ("session_id", serOption Json.str r.session_id)]

/-- Serde deserialization of ChatRequest: the skipped status_callback field
is filled with its default value, None. -/
def ChatRequest.fromJson (σ : Type) : Json → Option (ChatRequest σ)
  | Json.obj [("messages", mj), ("model", oj), ("tools", tj),
      ("inference_config", cj), ("session_id", sj)] => do
      let messages ← listFromJson Message.fromJson mj
      let model ← deserOption strFromJson oj
      let tools ← deserOption (listFromJson Tool.fromJson) tj
      let inference_config ← deserOption InferenceConfig.fromJson cj
      let session_id ← deserOption strFromJson sj
      pure ⟨messages, model, tools, inference_config, session_id, none⟩
  | _ => none

/-- Serde serialization of ChatResponse (derived field order). -/
def ChatResponse.toJson (r : ChatResponse) : Json :=
  Json.obj [("message", r.message.toJson),
    ("tool_calls", serList ToolCall.toJson r.tool_calls),
    ("usage", serOption Usage.toJson r.usage),
    ("model", Json.str r.model),
    ("session_id", serOption Json.str r.session_id)]

/-- Serde deserialization of ChatResponse. -/
def ChatResponse.fromJson : Json → Option ChatResponse
  | Json.obj [("message", mj), ("tool_calls", tj), ("usage", uj),
      ("model", Json.str mo), ("session_id", sj)] => do
      let m ← Message.fromJson mj
      let tc ← listFromJson ToolCall.fromJson tj
      let u ← deserOption Usage.fromJson uj
      let s ← deserOption strFromJson sj
      pure ⟨m, tc, u, mo, s⟩
  | _ => none

/-- Serde serialization of ChatStreamEvent (externally tagged struct variants). -/
def ChatStreamEvent.toJson : ChatStreamEvent → Json
  | ChatStreamEvent.Start r => Json.obj [("Start", Json.obj [("role", r.toJson)])]
  | ChatStreamEvent.TextDelta t => Json.obj [("TextDelta", Json.obj [("text", Json.str t)])]
  | ChatStreamEvent.ToolCallStart i n =>
      Json.obj [("ToolCallStart", Json.obj [("id", Json.str i), ("name", Json.str n)])]
  | ChatStreamEvent.ToolCallDelta i inp =>
      Json.obj [("ToolCallDelta", Json.obj [("id", Json.str i), ("input", Json.str inp)])]
  | ChatStreamEvent.ToolCallEnd i => Json.obj [("ToolCallEnd", Json.obj [("id", Json.str i)])]
  | ChatStreamEvent.End u => Json.obj [("End", Json.obj [("usage", serOption Usage.toJson u)])]

/-- Serde deserialization of ChatStreamEvent. -/
def ChatStreamEvent.fromJson : Json → Option ChatStreamEvent
  | Json.obj [("Start", Json.obj [("role", rj)])] =>
      (MessageRole.fromJson rj).map ChatStreamEvent.Start
  | Json.obj [("TextDelta", Json.obj [("text", Json.str t)])] =>
      some (ChatStreamEvent.TextDelta t)
  | Json.obj [("ToolCallStart", Json.obj [("id", Json.str i), ("name", Json.str n)])] =>
      some (ChatStreamEvent.ToolCallStart i n)
  | Json.obj [("ToolCallDelta", Json.obj [("id", Json.str i), ("input", Json.str inp)])] =>
      some (ChatStreamEvent.ToolCallDelta i inp)
  | Json.obj [("ToolCallEnd", Json.obj [("id", Json.str i)])] =>
      some (ChatStreamEvent.ToolCallEnd i)
  | Json.obj [("End", Json.obj [("usage", uj)])] =>
      (deserOption Usage.fromJson uj).map ChatStreamEvent.End
  | _ => none

/-- Modelled from the spec: one item of a chat stream. chat_stream has no
implementation in the source, which only declares the ChatStream type alias
Pin Box Stream of Result ChatStreamEvent; an item is a successful event or a
terminal error. -/
inductive StreamItem where
  | ok (e : ChatStreamEvent)
  | err (msg : String)
  deriving DecidableEq

/-- Modelled from the spec: the tool-call bookkeeping of a live stream, the
ids of tool calls currently open and of tool calls already closed. -/
structure MidState where
  openIds : List String
  closedIds : List String
  deriving DecidableEq

/-- Modelled from the spec: the phase of the streaming protocol automaton. -/
inductive StreamState where
  | notStarted
  | streaming (m : MidState)
  | done
  deriving DecidableEq

/-- Modelled from the spec: one transition of the streaming event protocol of
spec sections 3, 7 and 8. Before Start only Start is legal; a ToolCallStart
must use a fresh id; a ToolCallDelta needs its id open; a ToolCallEnd closes
an open id; End and a terminal error close a fully-terminated sequence (all
tool-call pairs complete, per the never-a-partial-success rule); nothing
follows the terminal item. -/
def streamStep : StreamState → StreamItem → Option StreamState
  | StreamState.notStarted, StreamItem.ok (ChatStreamEvent.Start _) =>
      some (StreamState.streaming ⟨[], []⟩)
  | StreamState.streaming m, StreamItem.ok (ChatStreamEvent.TextDelta _) =>
      some (StreamState.streaming m)
  | StreamState.streaming m, StreamItem.ok (ChatStreamEvent.ToolCallStart i _) =>
      if i ∈ m.openIds ∨ i ∈ m.closedIds then none
      else some (StreamState.streaming ⟨i :: m.openIds, m.closedIds⟩)
  | StreamState.streaming m, StreamItem.ok (ChatStreamEvent.ToolCallDelta i _) =>
      if i ∈ m.openIds then some (StreamState.streaming m) else none
  | StreamState.streaming m, StreamItem.ok (ChatStreamEvent.ToolCallEnd i) =>
      if i ∈ m.openIds
      then some (StreamState.streaming ⟨m.openIds.erase i, i :: m.closedIds⟩)
      else none
  | StreamState.streaming m, StreamItem.ok (ChatStreamEvent.End _) =>
      if m.openIds = [] then some StreamState.done else none
  | StreamState.streaming m, StreamItem.err _ =>
      if m.openIds = [] then some StreamState.done else none
  | _, _ => none

/-- Modelled from the spec: run the protocol automaton over the items of a
stream, failing on any illegal transition. -/
def runStream : StreamState → List StreamItem → Option StreamState
  | s, [] => some s
  | s, x :: xs => (streamStep s x).bind fun s1 => runStream s1 xs

/-- Modelled from the spec: a well-formed streaming event sequence, one the
protocol automaton accepts from the initial phase into the terminal phase. -/
abbrev ValidStream (es : List StreamItem) : Prop :=
  runStream StreamState.notStarted es = some StreamState.done

/-- Whether a stream item is a Start event. -/
def StreamItem.isStart : StreamItem → Bool
  | StreamItem.ok (ChatStreamEvent.Start _) => true
  | _ => false

/-- Whether a stream item is terminal: an End event or an error. -/
def StreamItem.isTerminal : StreamItem → Bool
  | StreamItem.ok (ChatStreamEvent.End _) => true
  | StreamItem.err _ => true
  | _ => false

/-- A concrete well-formed stream: Start, text, one complete tool call with
a delta, End. -/
def demoStream : List StreamItem :=
  [StreamItem.ok (ChatStreamEvent.Start MessageRole.Assistant),
   StreamItem.ok (ChatStreamEvent.TextDelta "hi"),
   StreamItem.ok (ChatStreamEvent.ToolCallStart "a" "tool"),
   StreamItem.ok (ChatStreamEvent.ToolCallDelta "a" "arg"),
   StreamItem.ok (ChatStreamEvent.ToolCallEnd "a"),
   StreamItem.ok (ChatStreamEvent.End none)]

/-- C1: is_retryable is true for exactly RateLimited and NetworkError and
false for the other five BackendError variants. -/
theorem c1_is_retryable_exactly_rate_limited_and_network :
    BackendError.RateLimited.is_retryable = true
    ∧ (∀ m, (BackendError.NetworkError m).is_retryable = true)
    ∧ (∀ m, (BackendError.UnsupportedModel m).is_retryable = false)
    ∧ (∀ m, (BackendError.ValidationError m).is_retryable = false)
    ∧ BackendError.AuthenticationError.is_retryable = false
    ∧ (∀ m, (BackendError.ProviderError m).is_retryable = false)
    ∧ (∀ m, (BackendError.InternalError m).is_retryable = false) :=
  ⟨rfl, fun _ => rfl, fun _ => rfl, fun _ => rfl, rfl, fun _ => rfl, fun _ => rfl⟩

/-- C2: the default RetryConfig is 10 retries, 2000ms initial delay,
exponential backoff with multiplier 3, verbose off. -/
theorem c2_retry_config_default :
    RetryConfig.default.max_retries = 10
    ∧ RetryConfig.default.initial_delay = 2000
    ∧ RetryConfig.default.backoff_strategy = BackoffStrategy.Exponential 3
    ∧ RetryConfig.default.verbose = false :=
  ⟨rfl, rfl, rfl, rfl⟩

/-- C4: Message.text builds a message with the given role whose content is
exactly one Text block holding the given string. -/
theorem c4_message_text (r : MessageRole) (s : String) :
    (Message.text r s).role = r
    ∧ (Message.text r s).content = [ContentBlock.Text s] :=
  ⟨rfl, rfl⟩

/-- C5: the default InferenceConfig has temperature 0.7, top_p 0.9 and
max_tokens 4096, each present. -/
theorem c5_inference_config_default :
    InferenceConfig.default.temperature = some (7 / 10)
    ∧ InferenceConfig.default.top_p = some (9 / 10)
    ∧ InferenceConfig.default.max_tokens = some 4096 :=
  ⟨rfl, rfl, rfl⟩

/-- C9: Message.with_tool_calls puts the text block first, then the tool
calls wrapped as ToolCall blocks in order; content length is 1 + number of
tool calls. -/
theorem c9_with_tool_calls (r : MessageRole) (s : String) (cs : List ToolCall) :
    (Message.with_tool_calls r s cs).role = r
    ∧ (Message.with_tool_calls r s cs).content
        = ContentBlock.Text s :: cs.map ContentBlock.ToolCall
    ∧ (Message.with_tool_calls r s cs).content.length = 1 + cs.length := by
  refine ⟨rfl, rfl, ?_⟩
  simp [Message.with_tool_calls, Nat.add_comm]

/-- C10: Message.tool_result always has role User (never Assistant or System)
and content exactly one ToolResult block with the given id and result. -/
theorem c10_tool_result (t s : String) :
    (Message.tool_result t s).role = MessageRole.User
    ∧ (Message.tool_result t s).role ≠ MessageRole.Assistant
    ∧ (Message.tool_result t s).role ≠ MessageRole.System
    ∧ (Message.tool_result t s).content = [ContentBlock.ToolResult t s] := by
  refine ⟨rfl, ?_, ?_, rfl⟩ <;> simp [Message.tool_result]

/-- C6: for an Exponential backoff with multiplier m the delay before retry
attempt n (1-indexed) is initial_delay times m to the power (n-1). -/
theorem c6_exponential_delay (c : RetryConfig) (m n : Nat)
    (hs : c.backoff_strategy = BackoffStrategy.Exponential m) (hn : 1 ≤ n) :
    c.backoff_strategy.delay c.initial_delay n = c.initial_delay * m ^ (n - 1) := by
  rw [hs]; rfl

/-- Witness for C6: with the default configuration (initial delay 2000ms,
multiplier 3) the delays of attempts 1, 2, 3 are 2000, 6000, 18000 ms. -/
theorem c6_exponential_delay_witness :
    RetryConfig.default.backoff_strategy.delay RetryConfig.default.initial_delay 1 = 2000
    ∧ RetryConfig.default.backoff_strategy.delay RetryConfig.default.initial_delay 2 = 6000
    ∧ RetryConfig.default.backoff_strategy.delay RetryConfig.default.initial_delay 3 = 18000 := by
  refine ⟨?_, ?_, ?_⟩
  · have h := c6_exponential_delay RetryConfig.default 3 1 rfl (by decide)
    simpa using h
  · have h := c6_exponential_delay RetryConfig.default 3 2 rfl (by decide)
    simpa using h
  · have h := c6_exponential_delay RetryConfig.default 3 3 rfl (by decide)
    simpa using h

/-- C7: for a Linear backoff with increment i the delay before retry attempt
n (1-indexed) is initial_delay + i times (n-1); for Fixed backoff the delay
is initial_delay for every attempt. -/
theorem c7_linear_and_fixed_delay :
    (∀ (c : RetryConfig) (i n : Nat),
      c.backoff_strategy = BackoffStrategy.Linear i → 1 ≤ n →
      c.backoff_strategy.delay c.initial_delay n = c.initial_delay + i * (n - 1))
    ∧ (∀ (c : RetryConfig) (n : Nat),
      c.backoff_strategy = BackoffStrategy.Fixed →
      c.backoff_strategy.delay c.initial_delay n = c.initial_delay) := by
  constructor
  · intro c i n hs hn
    rw [hs]; rfl
  · intro c n hs
    rw [hs]; rfl

/-- Witness for C7: with initial delay 2000ms and linear increment 500ms the
delay of attempt 3 is 3000ms; with Fixed strategy attempt 5 still waits
2000ms. -/
theorem c7_linear_and_fixed_delay_witness :
    (BackoffStrategy.Linear 500).delay 2000 3 = 2000 + 500 * (3 - 1)
    ∧ BackoffStrategy.Fixed.delay 2000 5 = 2000 := by
  constructor
  · exact c7_linear_and_fixed_delay.1 ⟨0, 2000, BackoffStrategy.Linear 500, false⟩ 500 3 rfl (by decide)
  · exact c7_linear_and_fixed_delay.2 ⟨0, 2000, BackoffStrategy.Fixed, false⟩ 5 rfl

/-- On a non-null value, deserOption defers to the inner deserializer. -/
theorem deserOption_ne_null {α : Type} (g : Json → Option α) (j : Json)
    (h : j ≠ Json.null) : deserOption g j = (g j).map some := by
  cases j
  case null => exact absurd rfl h
  all_goals rfl

/-- Option serialization round-trips whenever the inner serializer
round-trips and never produces null. -/
theorem deserOption_serOption {α : Type} (f : α → Json) (g : Json → Option α)
    (hg : ∀ a, g (f a) = some a) (hnull : ∀ a, f a ≠ Json.null) (x : Option α) :
    deserOption g (serOption f x) = some x := by
  cases x with
  | none => rfl
  | some a =>
      rw [show serOption f (some a) = f a from rfl,
        deserOption_ne_null g (f a) (hnull a), hg a]
      rfl

/-- Element-wise list serialization round-trips. -/
theorem fromJsonList_map {α : Type} (f : α → Json) (g : Json → Option α)
    (hg : ∀ a, g (f a) = some a) (xs : List α) :
    fromJsonList g (xs.map f) = some xs := by
  induction xs with
  | nil => rfl
  | cons x xs ih => simp [fromJsonList, hg, ih]

/-- Vec serialization round-trips. -/
theorem listFromJson_serList {α : Type} (f : α → Json) (g : Json → Option α)
    (hg : ∀ a, g (f a) = some a) (xs : List α) :
    listFromJson g (serList f xs) = some xs := by
  rw [show serList f xs = Json.arr (xs.map f) from rfl]
  rw [show listFromJson g (Json.arr (xs.map f)) = fromJsonList g (xs.map f) from rfl]
  exact fromJsonList_map f g hg xs

/-- Nat values round-trip through JSON numbers. -/
theorem natFromJson_nat (n : Nat) : natFromJson (Json.num (n : ℚ)) = some n := by
  simp [natFromJson]

/-- MessageRole serialization round-trips. -/
theorem messageRole_roundtrip (r : MessageRole) :
    MessageRole.fromJson r.toJson = some r := by
  cases r <;> rfl

/-- ToolCall serialization round-trips. -/
theorem toolCall_roundtrip (tc : ToolCall) : ToolCall.fromJson tc.toJson = some tc := by
  cases tc; rfl

/-- Tool serialization round-trips. -/
theorem tool_roundtrip (t : Tool) : Tool.fromJson t.toJson = some t := by
  cases t; rfl

/-- ContentBlock serialization round-trips. -/
theorem contentBlock_roundtrip (b : ContentBlock) :
    ContentBlock.fromJson b.toJson = some b := by
  cases b with
  | Text s => rfl
  | ToolCall tc => simp [ContentBlock.toJson, ContentBlock.fromJson, toolCall_roundtrip]
  | ToolResult tid r => rfl

/-- Message serialization round-trips. -/
theorem message_roundtrip (m : Message) : Message.fromJson m.toJson = some m := by
  cases m with
  | mk r c =>
      simp [Message.toJson, Message.fromJson, messageRole_roundtrip,
        listFromJson_serList ContentBlock.toJson ContentBlock.fromJson contentBlock_roundtrip]

/-- InferenceConfig serialization round-trips. -/
theorem inferenceConfig_roundtrip (c : InferenceConfig) :
    InferenceConfig.fromJson c.toJson = some c := by
  cases c with
  | mk t p mt =>
      simp [InferenceConfig.toJson, InferenceConfig.fromJson,
        deserOption_serOption Json.num ratFromJson (fun q => rfl)
          (fun q h => Json.noConfusion h),
        deserOption_serOption (fun (n : Nat) => Json.num (n : ℚ)) natFromJson natFromJson_nat
          (fun n h => Json.noConfusion h)]

/-- Usage serialization round-trips. -/
theorem usage_roundtrip (u : Usage) : Usage.fromJson u.toJson = some u := by
  cases u with
  | mk i o t => simp [Usage.toJson, Usage.fromJson, natFromJson_nat]

/-- ChatRequest serialization round-trips up to dropping the skipped
status_callback field, which deserializes to None. -/
theorem chatRequest_roundtrip {σ : Type} (r : ChatRequest σ) :
    ChatRequest.fromJson σ r.toJson = some { r with status_callback := none } := by
  cases r with
  | mk ms mo ts ic si cb =>
      simp [ChatRequest.toJson, ChatRequest.fromJson,
        listFromJson_serList Message.toJson Message.fromJson message_roundtrip,
        deserOption_serOption Json.str strFromJson (fun s => rfl)
          (fun s h => Json.noConfusion h),
        deserOption_serOption (serList Tool.toJson) (listFromJson Tool.fromJson)
          (listFromJson_serList Tool.toJson Tool.fromJson tool_roundtrip)
          (fun l => by simp [serList]),
        deserOption_serOption InferenceConfig.toJson InferenceConfig.fromJson
          inferenceConfig_roundtrip (fun c => by simp [InferenceConfig.toJson]),
        deserOption_serOption Usage.toJson Usage.fromJson usage_roundtrip
          (fun u => by simp [Usage.toJson])]

/-- ChatResponse serialization round-trips. -/
theorem chatResponse_roundtrip (r : ChatResponse) :
    ChatResponse.fromJson r.toJson = some r := by
  cases r with
  | mk m tc u mo si =>
      simp [ChatResponse.toJson, ChatResponse.fromJson, message_roundtrip,
        listFromJson_serList ToolCall.toJson ToolCall.fromJson toolCall_roundtrip,
        deserOption_serOption Json.str strFromJson (fun s => rfl)
          (fun s h => Json.noConfusion h),
        deserOption_serOption Usage.toJson Usage.fromJson usage_roundtrip
          (fun u => by simp [Usage.toJson])]

/-- ChatStreamEvent serialization round-trips. -/
theorem chatStreamEvent_roundtrip (e : ChatStreamEvent) :
    ChatStreamEvent.fromJson e.toJson = some e := by
  cases e with
  | Start r => simp [ChatStreamEvent.toJson, ChatStreamEvent.fromJson, messageRole_roundtrip]
  | TextDelta t => rfl
  | ToolCallStart i n => rfl
  | ToolCallDelta i inp => rfl
  | ToolCallEnd i => rfl
  | End u =>
      simp [ChatStreamEvent.toJson, ChatStreamEvent.fromJson,
        deserOption_serOption Usage.toJson Usage.fromJson usage_roundtrip
          (fun u => by simp [Usage.toJson])]

/-- C3: serializing then deserializing a ChatRequest yields the same value
with status_callback always None; ChatResponse and ChatStreamEvent values
round-trip exactly. -/
theorem c3_serialization_roundtrip :
    (∀ (σ : Type) (r : ChatRequest σ),
      ChatRequest.fromJson σ r.toJson = some { r with status_callback := none })
    ∧ (∀ r : ChatResponse, ChatResponse.fromJson r.toJson = some r)
    ∧ (∀ e : ChatStreamEvent, ChatStreamEvent.fromJson e.toJson = some e) :=
  ⟨fun σ r => chatRequest_roundtrip r, chatResponse_roundtrip, chatStreamEvent_roundtrip⟩

/-- No transition leaves the terminal phase. -/
theorem streamStep_done (x : StreamItem) : streamStep StreamState.done x = none := by
  cases x with
  | ok e => cases e <;> rfl
  | err m => rfl

/-- A run from the terminal phase accepts only the empty remainder. -/
theorem runStream_done (es : List StreamItem) (st : StreamState)
    (h : runStream StreamState.done es = some st) :
    es = [] ∧ st = StreamState.done := by
  cases es with
  | nil =>
      have h2 : some StreamState.done = some st := h
      exact ⟨rfl, (Option.some.inj h2).symm⟩
  | cons x xs =>
      rw [show runStream StreamState.done (x :: xs)
            = (streamStep StreamState.done x).bind (fun s1 => runStream s1 xs) from rfl,
        streamStep_done] at h
      simp at h

/-- From the initial phase only a Start event is accepted. -/
theorem streamStep_notStarted_inv (x : StreamItem) (s1 : StreamState)
    (h : streamStep StreamState.notStarted x = some s1) :
    ∃ r, x = StreamItem.ok (ChatStreamEvent.Start r)
      ∧ s1 = StreamState.streaming ⟨[], []⟩ := by
  cases x with
  | ok e =>
      cases e with
      | Start r =>
          exact ⟨r, rfl, (Option.some.inj h).symm⟩
      | TextDelta t => simp [streamStep] at h
      | ToolCallStart i n => simp [streamStep] at h
      | ToolCallDelta i inp => simp [streamStep] at h
      | ToolCallEnd i => simp [streamStep] at h
      | End u => simp [streamStep] at h
  | err m => simp [streamStep] at h

/-- Inversion of a transition taken from the streaming phase. -/
theorem streamStep_streaming_inv (m : MidState) (x : StreamItem) (s1 : StreamState)
    (h : streamStep (StreamState.streaming m) x = some s1) :
    (∃ t, x = StreamItem.ok (ChatStreamEvent.TextDelta t)
      ∧ s1 = StreamState.streaming m)
    ∨ (∃ i n, x = StreamItem.ok (ChatStreamEvent.ToolCallStart i n)
      ∧ ¬(i ∈ m.openIds ∨ i ∈ m.closedIds)
      ∧ s1 = StreamState.streaming ⟨i :: m.openIds, m.closedIds⟩)
    ∨ (∃ i inp, x = StreamItem.ok (ChatStreamEvent.ToolCallDelta i inp)
      ∧ i ∈ m.openIds ∧ s1 = StreamState.streaming m)
    ∨ (∃ i, x = StreamItem.ok (ChatStreamEvent.ToolCallEnd i)
      ∧ i ∈ m.openIds
      ∧ s1 = StreamState.streaming ⟨m.openIds.erase i, i :: m.closedIds⟩)
    ∨ (∃ u, x = StreamItem.ok (ChatStreamEvent.End u)
      ∧ m.openIds = [] ∧ s1 = StreamState.done)
    ∨ (∃ ms, x = StreamItem.err ms ∧ m.openIds = [] ∧ s1 = StreamState.done) := by
  cases x with
  | ok e =>
      cases e with
      | Start r => simp [streamStep] at h
      | TextDelta t =>
          exact Or.inl ⟨t, rfl, (Option.some.inj h).symm⟩
      | ToolCallStart i n =>
          rw [show streamStep (StreamState.streaming m)
                (StreamItem.ok (ChatStreamEvent.ToolCallStart i n))
              = (if i ∈ m.openIds ∨ i ∈ m.closedIds then none
                 else some (StreamState.streaming ⟨i :: m.openIds, m.closedIds⟩)) from rfl] at h
          split at h
          · simp at h
          · exact Or.inr (Or.inl ⟨i, n, rfl, by assumption, (Option.some.inj h).symm⟩)
      | ToolCallDelta i inp =>
          rw [show streamStep (StreamState.streaming m)
                (StreamItem.ok (ChatStreamEvent.ToolCallDelta i inp))
              = (if i ∈ m.openIds then some (StreamState.streaming m) else none) from rfl] at h
          split at h
          · exact Or.inr (Or.inr (Or.inl
              ⟨i, inp, rfl, by assumption, (Option.some.inj h).symm⟩))
          · simp at h
      | ToolCallEnd i =>
          rw [show streamStep (StreamState.streaming m)
                (StreamItem.ok (ChatStreamEvent.ToolCallEnd i))
              = (if i ∈ m.openIds
                 then some (StreamState.streaming ⟨m.openIds.erase i, i :: m.closedIds⟩)
                 else none) from rfl] at h
          split at h
          · exact Or.inr (Or.inr (Or.inr (Or.inl
              ⟨i, rfl, by assumption, (Option.some.inj h).symm⟩)))
          · simp at h
      | End u =>
          rw [show streamStep (StreamState.streaming m)
                (StreamItem.ok (ChatStreamEvent.End u))
              = (if m.openIds = [] then some StreamState.done else none) from rfl] at h
          split at h
          · exact Or.inr (Or.inr (Or.inr (Or.inr (Or.inl
              ⟨u, rfl, by assumption, (Option.some.inj h).symm⟩))))
          · simp at h
  | err ms =>
      rw [show streamStep (StreamState.streaming m) (StreamItem.err ms)
            = (if m.openIds = [] then some StreamState.done else none) from rfl] at h
      split at h
      · exact Or.inr (Or.inr (Or.inr (Or.inr (Or.inr
          ⟨ms, rfl, by assumption, (Option.some.inj h).symm⟩))))
      · simp at h

/-- Unfolding of a run over a cons cell. -/
theorem runStream_cons (s : StreamState) (x : StreamItem) (xs : List StreamItem) :
    runStream s (x :: xs) = (streamStep s x).bind fun s1 => runStream s1 xs := rfl

/-- A run splits over list concatenation. -/
theorem runStream_append (as bs : List StreamItem) :
    ∀ s, runStream s (as ++ bs)
      = (runStream s as).bind fun s1 => runStream s1 bs := by
  induction as with
  | nil => intro s; rfl
  | cons x xs ih =>
      intro s
      rw [List.cons_append, runStream_cons, runStream_cons]
      cases hstep : streamStep s x with
      | none => rfl
      | some s1 => simpa using ih s1

/-- After the stream has started, no further Start event is accepted. -/
theorem run_streaming_no_start (es : List StreamItem) :
    ∀ m : MidState,
    runStream (StreamState.streaming m) es = some StreamState.done →
    ∀ x ∈ es, x.isStart = false := by
  induction es with
  | nil => intro m h x hx; simp at hx
  | cons y ys ih =>
      intro m h x hx
      rw [runStream_cons] at h
      rcases Option.bind_eq_some.mp h with ⟨s1, hstep, hrun⟩
      rcases streamStep_streaming_inv m y s1 hstep with
        ⟨t, hy, hs1⟩ | ⟨i, n, hy, hc, hs1⟩ | ⟨i, inp, hy, hc, hs1⟩ |
        ⟨i, hy, hc, hs1⟩ | ⟨u, hy, hc, hs1⟩ | ⟨ms, hy, hc, hs1⟩
      · subst hy; subst hs1
        rcases List.mem_cons.mp hx with rfl | hx2
        · rfl
        · exact ih _ hrun x hx2
      · subst hy; subst hs1
        rcases List.mem_cons.mp hx with rfl | hx2
        · rfl
        · exact ih _ hrun x hx2
      · subst hy; subst hs1
        rcases List.mem_cons.mp hx with rfl | hx2
        · rfl
        · exact ih _ hrun x hx2
      · subst hy; subst hs1
        rcases List.mem_cons.mp hx with rfl | hx2
        · rfl
        · exact ih _ hrun x hx2
      · subst hy; subst hs1
        rcases runStream_done ys _ hrun with ⟨rfl, _⟩
        rcases List.mem_cons.mp hx with rfl | hx2
        · rfl
        · simp at hx2
      · subst hy; subst hs1
        rcases runStream_done ys _ hrun with ⟨rfl, _⟩
        rcases List.mem_cons.mp hx with rfl | hx2
        · rfl
        · simp at hx2

/-- A completed run from the streaming phase ends in exactly one terminal
item, its last. -/
theorem run_streaming_terminal (es : List StreamItem) :
    ∀ m : MidState,
    runStream (StreamState.streaming m) es = some StreamState.done →
    ∃ pre t, es = pre ++ [t] ∧ t.isTerminal = true
      ∧ ∀ x ∈ pre, x.isTerminal = false := by
  induction es with
  | nil =>
      intro m h
      have h2 : some (StreamState.streaming m) = some StreamState.done := h
      simp at h2
  | cons y ys ih =>
      intro m h
      rw [runStream_cons] at h
      rcases Option.bind_eq_some.mp h with ⟨s1, hstep, hrun⟩
      rcases streamStep_streaming_inv m y s1 hstep with
        ⟨t, hy, hs1⟩ | ⟨i, n, hy, hc, hs1⟩ | ⟨i, inp, hy, hc, hs1⟩ |
        ⟨i, hy, hc, hs1⟩ | ⟨u, hy, hc, hs1⟩ | ⟨ms, hy, hc, hs1⟩
      · subst hy; subst hs1
        rcases ih _ hrun with ⟨pre, t2, heq, hterm, hpre⟩
        refine ⟨_ :: pre, t2, by rw [heq]; rfl, hterm, ?_⟩
        intro x hx
        rcases List.mem_cons.mp hx with rfl | hx2
        · rfl
        · exact hpre x hx2
      · subst hy; subst hs1
        rcases ih _ hrun with ⟨pre, t2, heq, hterm, hpre⟩
        refine ⟨_ :: pre, t2, by rw [heq]; rfl, hterm, ?_⟩
        intro x hx
        rcases List.mem_cons.mp hx with rfl | hx2
        · rfl
        · exact hpre x hx2
      · subst hy; subst hs1
        rcases ih _ hrun with ⟨pre, t2, heq, hterm, hpre⟩
        refine ⟨_ :: pre, t2, by rw [heq]; rfl, hterm, ?_⟩
        intro x hx
        rcases List.mem_cons.mp hx with rfl | hx2
        · rfl
        · exact hpre x hx2
      · subst hy; subst hs1
        rcases ih _ hrun with ⟨pre, t2, heq, hterm, hpre⟩
        refine ⟨_ :: pre, t2, by rw [heq]; rfl, hterm, ?_⟩
        intro x hx
        rcases List.mem_cons.mp hx with rfl | hx2
        · rfl
        · exact hpre x hx2
      · subst hy; subst hs1
        rcases runStream_done ys _ hrun with ⟨rfl, _⟩
        exact ⟨[], _, rfl, rfl, by simp⟩
      · subst hy; subst hs1
        rcases runStream_done ys _ hrun with ⟨rfl, _⟩
        exact ⟨[], _, rfl, rfl, by simp⟩

/-- Every id open after a run either got a ToolCallStart within the run or
was already open in the starting state. -/
theorem run_open_start (es : List StreamItem) :
    ∀ (s : StreamState) (m : MidState),
    runStream s es = some (StreamState.streaming m) →
    ∀ td ∈ m.openIds,
      (∃ (j : Nat) (n : String), es[j]? = some (StreamItem.ok (ChatStreamEvent.ToolCallStart td n)))
      ∨ (∃ m0, s = StreamState.streaming m0 ∧ td ∈ m0.openIds) := by
  induction es with
  | nil =>
      intro s m h td hmem
      have h2 : some s = some (StreamState.streaming m) := h
      exact Or.inr ⟨m, Option.some.inj h2, hmem⟩
  | cons y ys ih =>
      intro s m h td hmem
      rw [runStream_cons] at h
      rcases Option.bind_eq_some.mp h with ⟨s1, hstep, hrun⟩
      rcases ih s1 m hrun td hmem with ⟨j, n, hj⟩ | ⟨m1, hs1, hmem1⟩
      · exact Or.inl ⟨j + 1, n, by simpa using hj⟩
      · subst hs1
        cases s with
        | notStarted =>
            rcases streamStep_notStarted_inv y _ hstep with ⟨r, hy, hmk⟩
            have hm1 : m1 = ⟨[], []⟩ := StreamState.streaming.inj hmk
            rw [hm1] at hmem1
            simp at hmem1
        | streaming m0 =>
            rcases streamStep_streaming_inv m0 y _ hstep with
              ⟨t, hy, hc⟩ | ⟨i, n, hy, hfresh, hc⟩ | ⟨i, inp, hy, hopen, hc⟩ |
              ⟨i, hy, hopen, hc⟩ | ⟨u, hy, hnil, hc⟩ | ⟨ms, hy, hnil, hc⟩
            · have hm1 : m1 = m0 := StreamState.streaming.inj hc
              rw [hm1] at hmem1
              exact Or.inr ⟨m0, rfl, hmem1⟩
            · have hm1 : m1 = ⟨i :: m0.openIds, m0.closedIds⟩ :=
                StreamState.streaming.inj hc
              rw [hm1] at hmem1
              rcases List.mem_cons.mp hmem1 with rfl | hmem2
              · subst hy
                exact Or.inl ⟨0, n, by simp⟩
              · exact Or.inr ⟨m0, rfl, hmem2⟩
            · have hm1 : m1 = m0 := StreamState.streaming.inj hc
              rw [hm1] at hmem1
              exact Or.inr ⟨m0, rfl, hmem1⟩
            · have hm1 : m1 = ⟨m0.openIds.erase i, i :: m0.closedIds⟩ :=
                StreamState.streaming.inj hc
              rw [hm1] at hmem1
              exact Or.inr ⟨m0, rfl, List.mem_of_mem_erase hmem1⟩
            · exact absurd hc (by simp)
            · exact absurd hc (by simp)
        | done =>
            rw [streamStep_done] at hstep
            simp at hstep

/-- Every id open when a run completes gets a ToolCallEnd within the run. -/
theorem run_open_end (es : List StreamItem) :
    ∀ m : MidState,
    runStream (StreamState.streaming m) es = some StreamState.done →
    ∀ td ∈ m.openIds,
      ∃ (k : Nat), es[k]? = some (StreamItem.ok (ChatStreamEvent.ToolCallEnd td)) := by
  induction es with
  | nil =>
      intro m h td hmem
      have h2 : some (StreamState.streaming m) = some StreamState.done := h
      simp at h2
  | cons y ys ih =>
      intro m h td hmem
      rw [runStream_cons] at h
      rcases Option.bind_eq_some.mp h with ⟨s1, hstep, hrun⟩
      rcases streamStep_streaming_inv m y s1 hstep with
        ⟨t, hy, hs1⟩ | ⟨i, n, hy, hc, hs1⟩ | ⟨i, inp, hy, hc, hs1⟩ |
        ⟨i, hy, hc, hs1⟩ | ⟨u, hy, hc, hs1⟩ | ⟨ms, hy, hc, hs1⟩
      · subst hy; subst hs1
        rcases ih _ hrun td hmem with ⟨k, hk⟩
        exact ⟨k + 1, by simpa using hk⟩
      · subst hy; subst hs1
        rcases ih _ hrun td (List.mem_cons_of_mem i hmem) with ⟨k, hk⟩
        exact ⟨k + 1, by simpa using hk⟩
      · subst hy; subst hs1
        rcases ih _ hrun td hmem with ⟨k, hk⟩
        exact ⟨k + 1, by simpa using hk⟩
      · subst hy; subst hs1
        by_cases hcase : td = i
        · subst hcase
          exact ⟨0, by simp⟩
        · have hmem2 : td ∈ m.openIds.erase i :=
            (List.mem_erase_of_ne hcase).mpr hmem
          rcases ih _ hrun td hmem2 with ⟨k, hk⟩
          exact ⟨k + 1, by simpa using hk⟩
      · rw [hc] at hmem
        simp at hmem
      · rw [hc] at hmem
        simp at hmem

/-- A ToolCallDelta transition happens only in the streaming phase with its
id open, and leaves the state unchanged. -/
theorem streamStep_delta_inv (s : StreamState) (td inp : String) (s1 : StreamState)
    (h : streamStep s (StreamItem.ok (ChatStreamEvent.ToolCallDelta td inp)) = some s1) :
    ∃ m, s = StreamState.streaming m ∧ td ∈ m.openIds
      ∧ s1 = StreamState.streaming m := by
  cases s with
  | notStarted => simp [streamStep] at h
  | streaming m =>
      rw [show streamStep (StreamState.streaming m)
            (StreamItem.ok (ChatStreamEvent.ToolCallDelta td inp))
          = (if td ∈ m.openIds then some (StreamState.streaming m) else none) from rfl] at h
      split at h
      · exact ⟨m, rfl, by assumption, (Option.some.inj h).symm⟩
      · simp at h
  | done =>
      rw [streamStep_done] at h
      simp at h

/-- C8: a well-formed streaming event sequence has exactly one Start event,
first; exactly one terminal item (End event or error), last; and every
ToolCallDelta for an id lies strictly between the ToolCallStart and the
ToolCallEnd for that id. -/
theorem c8_stream_protocol (es : List StreamItem) (h : ValidStream es) :
    (∃ r rest, es = StreamItem.ok (ChatStreamEvent.Start r) :: rest
      ∧ ∀ x ∈ rest, x.isStart = false)
    ∧ (∃ pre t, es = pre ++ [t] ∧ t.isTerminal = true
      ∧ ∀ x ∈ pre, x.isTerminal = false)
    ∧ (∀ (i : Nat) (td inp : String),
        es[i]? = some (StreamItem.ok (ChatStreamEvent.ToolCallDelta td inp)) →
        (∃ (j : Nat) (n : String), j < i
          ∧ es[j]? = some (StreamItem.ok (ChatStreamEvent.ToolCallStart td n)))
        ∧ (∃ (k : Nat), i < k
          ∧ es[k]? = some (StreamItem.ok (ChatStreamEvent.ToolCallEnd td)))) := by
  have h0 : runStream StreamState.notStarted es = some StreamState.done := h
  refine ⟨?_, ?_, ?_⟩
  · cases es with
    | nil =>
        have h2 : some StreamState.notStarted = some StreamState.done := h0
        simp at h2
    | cons y rest =>
        rw [runStream_cons] at h0
        rcases Option.bind_eq_some.mp h0 with ⟨s1, hstep, hrun⟩
        rcases streamStep_notStarted_inv y s1 hstep with ⟨r, hy, hs1⟩
        subst hy; subst hs1
        exact ⟨r, rest, rfl, run_streaming_no_start rest _ hrun⟩
  · cases es with
    | nil =>
        have h2 : some StreamState.notStarted = some StreamState.done := h0
        simp at h2
    | cons y rest =>
        rw [runStream_cons] at h0
        rcases Option.bind_eq_some.mp h0 with ⟨s1, hstep, hrun⟩
        rcases streamStep_notStarted_inv y s1 hstep with ⟨r, hy, hs1⟩
        subst hy; subst hs1
        rcases run_streaming_terminal rest _ hrun with ⟨pre, t, heq, hterm, hpre⟩
        refine ⟨_ :: pre, t, by rw [heq]; rfl, hterm, ?_⟩
        intro x hx
        rcases List.mem_cons.mp hx with rfl | hx2
        · rfl
        · exact hpre x hx2
  · intro i td inp hi
    have hlen : i < es.length := (List.getElem?_eq_some_iff.mp hi).1
    have hsplit : es.take (i + 1) ++ es.drop (i + 1) = es :=
      List.take_append_drop (i + 1) es
    have h1 : runStream StreamState.notStarted (es.take (i + 1) ++ es.drop (i + 1))
        = some StreamState.done := by
      rw [hsplit]; exact h0
    rw [runStream_append] at h1
    rcases Option.bind_eq_some.mp h1 with ⟨sMid, htake, hdrop⟩
    have htake2 : es.take (i + 1)
        = es.take i ++ [StreamItem.ok (ChatStreamEvent.ToolCallDelta td inp)] := by
      rw [List.take_succ, hi]
      rfl
    rw [htake2, runStream_append] at htake
    rcases Option.bind_eq_some.mp htake with ⟨s0, htk, hdelta⟩
    have hstep0 : streamStep s0 (StreamItem.ok (ChatStreamEvent.ToolCallDelta td inp))
        = some sMid := by
      rw [runStream_cons] at hdelta
      rcases Option.bind_eq_some.mp hdelta with ⟨s1, hs, hrest⟩
      have hs1 : s1 = sMid := Option.some.inj hrest
      rw [← hs1]
      exact hs
    rcases streamStep_delta_inv s0 td inp sMid hstep0 with ⟨m0, hs0, hopen, hsMid⟩
    subst hs0; subst hsMid
    constructor
    · rcases run_open_start (es.take i) _ m0 htk td hopen with
        ⟨j, n, hj⟩ | ⟨m1, habs, hmem⟩
      · have hjlen : j < (es.take i).length := (List.getElem?_eq_some_iff.mp hj).1
        have hji : j < i :=
          lt_of_lt_of_le hjlen (by rw [List.length_take]; exact min_le_left _ _)
        refine ⟨j, n, hji, ?_⟩
        rw [← List.getElem?_take_of_lt hji]
        exact hj
      · exact absurd habs (by simp)
    · rcases run_open_end (es.drop (i + 1)) m0 hdrop td hopen with ⟨k2, hk2⟩
      refine ⟨i + 1 + k2, by omega, ?_⟩
      have hlen2 : (es.take (i + 1)).length = i + 1 := by
        rw [List.length_take]
        omega
      have hidx : es[i + 1 + k2]? = (es.drop (i + 1))[k2]? := by
        conv_lhs => rw [← hsplit]
        rw [List.getElem?_append_right (by rw [hlen2]; omega), hlen2]
        have harith : i + 1 + k2 - (i + 1) = k2 := by omega
        rw [harith]
      rw [hidx]
      exact hk2

/-- Witness for C8: the concrete demoStream is well formed, and the protocol
properties hold of it. -/
theorem c8_stream_protocol_witness :
    ValidStream demoStream
    ∧ ((∃ r rest, demoStream = StreamItem.ok (ChatStreamEvent.Start r) :: rest
        ∧ ∀ x ∈ rest, x.isStart = false)
      ∧ (∃ pre t, demoStream = pre ++ [t] ∧ t.isTerminal = true
        ∧ ∀ x ∈ pre, x.isTerminal = false)
      ∧ (∀ (i : Nat) (td inp : String),
          demoStream[i]? = some (StreamItem.ok (ChatStreamEvent.ToolCallDelta td inp)) →
          (∃ (j : Nat) (n : String), j < i
            ∧ demoStream[j]? = some (StreamItem.ok (ChatStreamEvent.ToolCallStart td n)))
          ∧ (∃ (k : Nat), i < k
            ∧ demoStream[k]? = some (StreamItem.ok (ChatStreamEvent.ToolCallEnd td))))) :=
  ⟨by decide, c8_stream_protocol demoStream (by decide)⟩
